import Mathlib

/-!
# Verification of the rabbit-net voting server

A shallow embedding of the vote-processing core of `server/main.go`:
the tally state (`votos` / `contagem`), the per-message processing loop,
and the broadcast messages it emits.

Go maps are modelled as association lists with the same observable
behaviour (lookup with zero-value default, insert-if-absent, increment).
The JSON decoding of inbound payloads (`json.Unmarshal` into the `Voto`
struct) is modelled on a structured JSON value type: a payload that is
not syntactically valid JSON is represented as `none`, and type errors
during unmarshalling are represented by `Except.error`. Field matching
follows `encoding/json`: keys bind to struct fields case-insensitively,
a `null` field value is a no-op that keeps the zero value, and a
matching field value of the wrong type is a decode error.
-/

namespace RabbitNet

/-- The vote message sent by clients (`Voto` in `server/main.go`):
fields `userId` and `opcao` of the wire format. -/
structure Voto where
  userID : String
  option : String
  deriving DecidableEq, Repr

/-- The broadcast message published by the server (`BroadcastMsg` in
`server/main.go`): `tipo`, optional `userId` and `mensagem`, and the
optional `resultado` tally mapping (empty when absent). -/
structure BroadcastMsg where
  tipo : String
  userID : String
  mensagem : String
  result : List (String × Nat)
  deriving DecidableEq, Repr

/-- The server state: `votos` (who voted, and for what) and `contagem`
(per-option counters), both Go maps modelled as association lists. -/
structure ServerState where
  votos : List (String × String)
  contagem : List (String × Nat)
  deriving DecidableEq, Repr

/-- The initial state of `main`: `votos := map[string]string{}` and
`contagem := map[string]int{"A": 0, "B": 0, "C": 0}`. -/
def initState : ServerState :=
  ⟨[], [("A", 0), ("B", 0), ("C", 0)]⟩

/-- Go map read with `, exists` on `votos`: first matching key. Keys are
inserted at most once, so the association list has distinct keys. -/
def lookupVoto : List (String × String) → String → Option String
  | [], _ => none
  | (k, v) :: rest, u => if k = u then some v else lookupVoto rest u

/-- Go map read `contagem[o]` (zero value `0` for an absent key). -/
def getCount : List (String × Nat) → String → Nat
  | [], _ => 0
  | (k, n) :: rest, o => if k = o then n else getCount rest o

/-- Go map increment `contagem[o]++`: bump the entry when the key is
present, insert the key with value `1` otherwise. -/
def incCount : List (String × Nat) → String → List (String × Nat)
  | [], o => [(o, 1)]
  | (k, n) :: rest, o =>
    if k = o then (k, n + 1) :: rest else (k, n) :: incCount rest o

/-- Sum of all counter values, `sum(counts.values())` of the spec. -/
def sumCounts : List (String × Nat) → Nat
  | [] => 0
  | (_, n) :: rest => n + sumCounts rest

/-- Number of registered voters who chose option `o`. -/
def countVotes (votos : List (String × String)) (o : String) : Nat :=
  (votos.filter (fun p => p.2 == o)).length

/-- The spec's valid-option set: `opcao ∈ {"A","B","C"}`. -/
def validOption (o : String) : Bool :=
  o == "A" || o == "B" || o == "C"

/-- Outcome of registering one vote (the spec's `tryRegister` result):
`Accepted` carries the value snapshot of the counters taken right after
the increment. -/
inductive Outcome where
  | accepted (snapshot : List (String × Nat))
  | alreadyVoted
  | invalidOption
  deriving DecidableEq, Repr

/-- The check-and-register core of the main loop of `server/main.go`:
duplicate check first (`if _, exists := votos[v.UserID]; exists`), then
option validation (`v.Option != "A" && v.Option != "B" && v.Option != "C"`),
then `votos[v.UserID] = v.Option; contagem[v.Option]++`. -/
def tryRegister (s : ServerState) (userID opt : String) :
    Outcome × ServerState :=
  if (lookupVoto s.votos userID).isSome then
    (Outcome.alreadyVoted, s)
  else if opt != "A" && opt != "B" && opt != "C" then
    (Outcome.invalidOption, s)
  else
    let contagem' := incCount s.contagem opt
    (Outcome.accepted contagem',
      ⟨s.votos ++ [(userID, opt)], contagem'⟩)

/-- `enviarConfirmacao` of `server/main.go`. -/
def enviarConfirmacao (user : String) : BroadcastMsg :=
  ⟨"confirmacao", user, "Voto registrado com sucesso.", []⟩

/-- `enviarErro` of `server/main.go`. -/
def enviarErro (user texto : String) : BroadcastMsg :=
  ⟨"erro", user, texto, []⟩

/-- `enviarParcial` of `server/main.go`. -/
def enviarParcial (res : List (String × Nat)) : BroadcastMsg :=
  ⟨"parcial", "", "", res⟩

/-- `enviarFinal` of `server/main.go`. -/
def enviarFinal (res : List (String × Nat)) : BroadcastMsg :=
  ⟨"final", "", "", res⟩

/-- One iteration of the main loop on a successfully decoded vote:
register it and emit the corresponding broadcast messages, in source
order (`enviarErro` and `continue`, or `enviarConfirmacao` then
`enviarParcial`). -/
def processVoto (s : ServerState) (v : Voto) :
    List BroadcastMsg × ServerState :=
  match tryRegister s v.userID v.option with
  | (Outcome.accepted snap, s') =>
      ([enviarConfirmacao v.userID, enviarParcial snap], s')
  | (Outcome.alreadyVoted, s') =>
      ([enviarErro v.userID "Você já votou."], s')
  | (Outcome.invalidOption, s') =>
      ([enviarErro v.userID "Opção inválida."], s')

/-- Structured JSON values, for modelling `json.Unmarshal` on inbound
vote payloads. -/
inductive Json where
  | null
  | bool (b : Bool)
  | num (n : Int)
  | str (s : String)
  | arr (elems : List Json)
  | obj (fields : List (String × Json))

/-- ASCII case folding of one character code: codes of `A`-`Z` map to
their lower-case counterparts. -/
def foldCode (c : Char) : Nat :=
  if 65 ≤ c.toNat && c.toNat ≤ 90 then c.toNat + 32 else c.toNat

/-- `encoding/json` matches object keys to struct-field names
case-insensitively; the field names in play (`userId`, `opcao`) are
ASCII, for which this fold comparison coincides with Go's matching. -/
def foldEq (a b : String) : Bool :=
  a.data.map foldCode == b.data.map foldCode

/-- The assignments an object's keys make to one string-typed struct
field, processed in key order as `encoding/json` does: a key matching
the field name (case-insensitively) with a JSON string value assigns
it (later assignments overwrite earlier ones), a matching `null` value
is a no-op that assigns nothing, and a matching value of any other
type is a type error; non-matching keys are ignored. `Except.ok none`
means no key assigned the field. -/
def scanStringField : List (String × Json) → String → Except String (Option String)
  | [], _ => Except.ok none
  | (k, v) :: rest, key =>
    if foldEq k key then
      match v, scanStringField rest key with
      | _, Except.error e => Except.error e
      | Json.null, Except.ok r => Except.ok r
      | Json.str _, Except.ok (some r) => Except.ok (some r)
      | Json.str s, Except.ok none => Except.ok (some s)
      | _, _ => Except.error "cannot unmarshal field"
    else scanStringField rest key

/-- Decoding one string-typed struct field: a field never assigned
(absent, or present only as `null`) keeps the zero value `""`. -/
def decodeStringField (fields : List (String × Json)) (key : String) :
    Except String String :=
  match scanStringField fields key with
  | Except.error e => Except.error e
  | Except.ok none => Except.ok ""
  | Except.ok (some s) => Except.ok s

/-- `json.Unmarshal(body, &v)` for `v : Voto`: a JSON object yields the
`userId` and `opcao` fields (missing fields decode to `""`), JSON `null`
leaves the zero value, and any other top-level value is an error. -/
def decodeVoto : Json → Except String Voto
  | Json.obj fields =>
    match decodeStringField fields "userId" with
    | Except.error e => Except.error e
    | Except.ok u =>
      match decodeStringField fields "opcao" with
      | Except.error e => Except.error e
      | Except.ok o => Except.ok ⟨u, o⟩
  | Json.null => Except.ok ⟨"", ""⟩
  | _ => Except.error "cannot unmarshal value"

/-- One iteration of the main loop on a raw inbound payload: `none`
stands for a body that is not valid JSON; a decode failure is logged
and dropped (`continue`) with no notification. -/
def processMsg (s : ServerState) (body : Option Json) :
    List BroadcastMsg × ServerState :=
  match body with
  | none => ([], s)
  | some j =>
    match decodeVoto j with
    | Except.error _ => ([], s)
    | Except.ok v => processVoto s v

/-- The main loop of `server/main.go` over a finite inbound prefix:
the list of broadcast messages published, and the final state. -/
def runServer (s : ServerState) : List (Option Json) →
    List BroadcastMsg × ServerState
  | [] => ([], s)
  | m :: rest =>
    let r := processMsg s m
    let r2 := runServer r.2 rest
    (r.1 ++ r2.1, r2.2)

/-- Registering a list of decoded votes in arrival order, collecting
the `tryRegister` outcomes (the loop of `server/main.go` restricted to
well-formed votes). -/
def registerAll (s : ServerState) : List Voto →
    List Outcome × ServerState
  | [] => ([], s)
  | v :: rest =>
    let r := tryRegister s v.userID v.option
    let r2 := registerAll r.2 rest
    (r.1 :: r2.1, r2.2)

/-- Whether an outcome is `accepted`. -/
def isAccepted : Outcome → Bool
  | Outcome.accepted _ => true
  | _ => false

/-- The `resultado` payloads of the `parcial` messages in a trace, in
publication order. -/
def parcialSnaps (out : List BroadcastMsg) : List (List (String × Nat)) :=
  out.filterMap (fun m => if m.tipo == "parcial" then some m.result else none)

/-! ## Helper lemmas about the map model -/

/-- Looking up a key just appended (when absent before) succeeds. -/
theorem lookupVoto_append_self (l : List (String × String)) (u o : String) :
    (lookupVoto (l ++ [(u, o)]) u).isSome = true := by
  induction l with
  | nil => simp [lookupVoto]
  | cons hd tl ih =>
    obtain ⟨k, v⟩ := hd
    by_cases hk : k = u <;> simp [lookupVoto, hk, ih]

/-- Appending an entry for a different key does not create a binding
for `u`. -/
theorem lookupVoto_append_other (l : List (String × String)) (u w o : String)
    (hne : u ≠ w) (h : lookupVoto l u = none) :
    lookupVoto (l ++ [(w, o)]) u = none := by
  induction l with
  | nil =>
    simp [lookupVoto]
    exact fun hh => hne hh.symm
  | cons hd tl ih =>
    obtain ⟨k, v⟩ := hd
    by_cases hk : k = u
    · simp [lookupVoto, hk] at h
    · simp [lookupVoto, hk] at h ⊢
      exact ih h

/-- `incCount` bumps exactly the requested counter, reading with the
Go-map default of `0` for absent keys. -/
theorem getCount_incCount (c : List (String × Nat)) (o o' : String) :
    getCount (incCount c o) o' =
      if o' = o then getCount c o + 1 else getCount c o' := by
  induction c with
  | nil =>
    by_cases h : o' = o
    · simp [incCount, getCount, h]
    · have h2 : ¬o = o' := fun hh => h hh.symm
      simp [incCount, getCount, h, h2]
  | cons hd tl ih =>
    obtain ⟨k, n⟩ := hd
    by_cases hk : k = o
    · subst hk
      by_cases h : o' = k
      · subst h
        simp [incCount, getCount]
      · have h2 : ¬k = o' := fun hh => h hh.symm
        simp [incCount, getCount, h, h2]
    · by_cases h : k = o'
      · subst h
        simp [incCount, getCount, hk]
      · simp [incCount, getCount, hk, h, ih]

/-- `incCount` increases the total of the counters by exactly one. -/
theorem sumCounts_incCount (c : List (String × Nat)) (o : String) :
    sumCounts (incCount c o) = sumCounts c + 1 := by
  induction c with
  | nil => simp [incCount, sumCounts]
  | cons hd tl ih =>
    obtain ⟨k, n⟩ := hd
    by_cases hk : k = o <;> simp [incCount, sumCounts, hk, ih] <;> omega

/-- Appending one voter changes each option's voter count by the
expected amount. -/
theorem countVotes_append (l : List (String × String)) (u o o' : String) :
    countVotes (l ++ [(u, o)]) o' =
      countVotes l o' + (if o = o' then 1 else 0) := by
  by_cases h : o = o' <;>
    simp [countVotes, List.filter_append, h]

/-! ## Case lemmas for `tryRegister` -/

/-- A registered voter is rejected before anything else is examined. -/
theorem tryRegister_dup (s : ServerState) (u o : String)
    (h : (lookupVoto s.votos u).isSome = true) :
    tryRegister s u o = (Outcome.alreadyVoted, s) := by
  simp [tryRegister, h]

/-- A fresh voter with an invalid option is rejected without mutation. -/
theorem tryRegister_invalid (s : ServerState) (u o : String)
    (h : lookupVoto s.votos u = none) (hv : validOption o = false) :
    tryRegister s u o = (Outcome.invalidOption, s) := by
  simp [validOption] at hv
  simp [tryRegister, h, hv]

/-- A fresh voter with a valid option is registered and counted. -/
theorem tryRegister_ok (s : ServerState) (u o : String)
    (h : lookupVoto s.votos u = none) (hv : validOption o = true) :
    tryRegister s u o =
      (Outcome.accepted (incCount s.contagem o),
        ⟨s.votos ++ [(u, o)], incCount s.contagem o⟩) := by
  simp [validOption] at hv
  rcases hv with (hv | hv) | hv <;> subst hv <;> simp [tryRegister, h]

/-- The three possible outcomes of one loop iteration, as seen on the
published messages and the state: dropped (no output), rejected (one
`erro` message, state unchanged), or accepted (a `confirmacao` and a
`parcial` with the freshly incremented counters, and the voter
appended). -/
theorem processMsg_out (s : ServerState) (m : Option Json) :
    ((processMsg s m).1 = [] ∧ (processMsg s m).2 = s) ∨
    (∃ u t, (processMsg s m).1 = [enviarErro u t] ∧ (processMsg s m).2 = s) ∨
    (∃ u o, lookupVoto s.votos u = none ∧
      (processMsg s m).2 = ⟨s.votos ++ [(u, o)], incCount s.contagem o⟩ ∧
      (processMsg s m).1 =
        [enviarConfirmacao u, enviarParcial (incCount s.contagem o)]) := by
  cases m with
  | none => exact Or.inl ⟨rfl, rfl⟩
  | some j =>
    cases hd : decodeVoto j with
    | error e => exact Or.inl (by simp [processMsg, hd])
    | ok v =>
      by_cases hdup : (lookupVoto s.votos v.userID).isSome
      · have ht := tryRegister_dup s v.userID v.option hdup
        refine Or.inr (Or.inl ⟨v.userID, "Você já votou.", ?_, ?_⟩) <;>
          simp [processMsg, hd, processVoto, ht]
      · have hnone : lookupVoto s.votos v.userID = none := by
          cases hl : lookupVoto s.votos v.userID with
          | none => rfl
          | some x => rw [hl] at hdup; simp at hdup
        by_cases hv : validOption v.option
        · have ht := tryRegister_ok s v.userID v.option hnone hv
          refine Or.inr (Or.inr ⟨v.userID, v.option, hnone, ?_, ?_⟩) <;>
            simp [processMsg, hd, processVoto, ht]
        · have ht := tryRegister_invalid s v.userID v.option hnone
            (by simpa using hv)
          refine Or.inr (Or.inl ⟨v.userID, "Opção inválida.", ?_, ?_⟩) <;>
            simp [processMsg, hd, processVoto, ht]

/-- The conservation invariant of the spec: each counter equals the
number of registered voters who chose it, and the counters sum to the
number of registered voters. -/
def Inv (s : ServerState) : Prop :=
  (∀ o, getCount s.contagem o = countVotes s.votos o) ∧
  sumCounts s.contagem = s.votos.length

/-- The initial state satisfies the conservation invariant. -/
theorem Inv_initState : Inv initState := by
  constructor
  · intro o
    simp [initState, getCount, countVotes]
  · rfl

/-- One loop iteration preserves the conservation invariant. -/
theorem Inv_processMsg (s : ServerState) (m : Option Json) (h : Inv s) :
    Inv (processMsg s m).2 := by
  rcases processMsg_out s m with ⟨-, hs⟩ | ⟨u, t, -, hs⟩ | ⟨u, o, -, hs, -⟩
  · rwa [hs]
  · rwa [hs]
  · rw [hs]
    obtain ⟨h1, h2⟩ := h
    constructor
    · intro o'
      show getCount (incCount s.contagem o) o' =
        countVotes (s.votos ++ [(u, o)]) o'
      rw [getCount_incCount, countVotes_append]
      by_cases ho : o' = o
      · subst ho
        simp [h1]
      · have ho2 : ¬o = o' := fun hh => ho hh.symm
        simp [ho, ho2, h1]
    · show sumCounts (incCount s.contagem o) = (s.votos ++ [(u, o)]).length
      rw [sumCounts_incCount, List.length_append]
      simp [h2]

/-- The whole loop preserves the conservation invariant. -/
theorem Inv_runServer (s : ServerState) (inbox : List (Option Json))
    (h : Inv s) : Inv (runServer s inbox).2 := by
  induction inbox generalizing s with
  | nil => exact h
  | cons m rest ih =>
    show Inv (runServer (processMsg s m).2 rest).2
    exact ih _ (Inv_processMsg s m h)

/-- `parcialSnaps` distributes over trace concatenation. -/
theorem parcialSnaps_append (a b : List BroadcastMsg) :
    parcialSnaps (a ++ b) = parcialSnaps a ++ parcialSnaps b := by
  simp [parcialSnaps]

/-- The counters published in successive `parcial` messages, preceded
by the counters of the starting state, form a chain of non-decreasing
values at every option. -/
theorem chain_runServer (inbox : List (Option Json)) (s : ServerState)
    (o : String) :
    List.Chain' (fun a b => getCount a o ≤ getCount b o)
      (s.contagem :: parcialSnaps (runServer s inbox).1) := by
  induction inbox generalizing s with
  | nil => simp [runServer, parcialSnaps]
  | cons m rest ih =>
    have hrun : (runServer s (m :: rest)).1 =
        (processMsg s m).1 ++ (runServer (processMsg s m).2 rest).1 := rfl
    rw [hrun, parcialSnaps_append]
    rcases processMsg_out s m with ⟨hp, hs⟩ | ⟨u, t, hp, hs⟩ | ⟨u, o₂, -, hs, hp⟩
    · rw [hp, hs]
      simpa using ih s
    · rw [hp, hs]
      have hpe : parcialSnaps [enviarErro u t] = [] := rfl
      rw [hpe]
      simpa using ih s
    · rw [hp, hs]
      have hpa : parcialSnaps
          [enviarConfirmacao u, enviarParcial (incCount s.contagem o₂)] =
          [incCount s.contagem o₂] := rfl
      rw [hpa]
      simp only [List.cons_append, List.singleton_append, List.nil_append]
      rw [List.chain'_cons]
      constructor
      · rw [getCount_incCount]
        by_cases h : o = o₂
        · simp [h]
        · simp [h]
      · exact ih ⟨s.votos ++ [(u, o₂)], incCount s.contagem o₂⟩

/-- Registering votes whose voters are pairwise distinct, fresh for
the current state, and who all choose valid options: every vote is
accepted and the counter total grows by exactly the number of votes. -/
theorem registerAll_fresh (vs : List Voto) (s : ServerState)
    (hn : (vs.map Voto.userID).Nodup)
    (hfresh : ∀ v ∈ vs, lookupVoto s.votos v.userID = none)
    (hv : ∀ v ∈ vs, validOption v.option = true) :
    ((registerAll s vs).1.filter isAccepted).length = vs.length ∧
    sumCounts (registerAll s vs).2.contagem =
      sumCounts s.contagem + vs.length := by
  induction vs generalizing s with
  | nil => simp [registerAll]
  | cons v rest ih =>
    have hfv : lookupVoto s.votos v.userID = none := hfresh v (by simp)
    have hvv : validOption v.option = true := hv v (by simp)
    have ht := tryRegister_ok s v.userID v.option hfv hvv
    have hr : registerAll s (v :: rest) =
        (Outcome.accepted (incCount s.contagem v.option) ::
          (registerAll
            ⟨s.votos ++ [(v.userID, v.option)], incCount s.contagem v.option⟩
            rest).1,
          (registerAll
            ⟨s.votos ++ [(v.userID, v.option)], incCount s.contagem v.option⟩
            rest).2) := by
      simp only [registerAll, ht]
    have hn2 : (rest.map Voto.userID).Nodup := (List.nodup_cons.mp hn).2
    have hu : v.userID ∉ rest.map Voto.userID := (List.nodup_cons.mp hn).1
    have hfresh2 : ∀ w ∈ rest,
        lookupVoto (s.votos ++ [(v.userID, v.option)]) w.userID = none := by
      intro w hw
      apply lookupVoto_append_other
      · intro he
        exact hu (he ▸ List.mem_map_of_mem Voto.userID hw)
      · exact hfresh w (List.mem_cons_of_mem _ hw)
    have hv2 : ∀ w ∈ rest, validOption w.option = true :=
      fun w hw => hv w (List.mem_cons_of_mem _ hw)
    obtain ⟨ih1, ih2⟩ := ih
      ⟨s.votos ++ [(v.userID, v.option)], incCount s.contagem v.option⟩
      hn2 hfresh2 hv2
    rw [hr]
    constructor
    · show ((Outcome.accepted (incCount s.contagem v.option) ::
        (registerAll _ rest).1).filter isAccepted).length = rest.length + 1
      rw [List.filter_cons]
      simp only [isAccepted, if_pos]
      rw [List.length_cons, ih1]
    · show sumCounts (registerAll _ rest).2.contagem =
        sumCounts s.contagem + (rest.length + 1)
      rw [ih2]
      show sumCounts (incCount s.contagem v.option) + rest.length =
        sumCounts s.contagem + (rest.length + 1)
      rw [sumCounts_incCount]
      omega

/-- A payload whose fields are present but `null` decodes successfully
to the zero values (`json.Unmarshal` treats a `null` field value as a
no-op, not an error), so the server answers it with an `erro`
broadcast rather than dropping it. -/
theorem decodeVoto_null_fields_answered :
    decodeVoto (Json.obj [("userId", Json.null), ("opcao", Json.null)]) =
      Except.ok ⟨"", ""⟩ ∧
    processMsg initState
        (some (Json.obj [("userId", Json.null), ("opcao", Json.null)])) =
      ([enviarErro "" "Opção inválida."], initState) :=
  ⟨rfl, by decide⟩

/-- A key matching a field name only case-insensitively still binds to
that field in `encoding/json`, so a non-string value under it is a
genuine decode failure. -/
theorem decodeVoto_case_insensitive_type_error :
    decodeVoto (Json.obj [("UserId", Json.num 5)]) =
      Except.error "cannot unmarshal field" := rfl

/-- A string value under a case-insensitively matching key is
assigned to the field, as in `encoding/json`. -/
theorem decodeVoto_case_insensitive_assign :
    decodeVoto (Json.obj [("USERID", Json.str "alice"), ("Opcao", Json.str "A")]) =
      Except.ok ⟨"alice", "A"⟩ := rfl

/-! ## The claims -/

/-- C1: for every voterID `v` already present in `castBy` (the state a
prior Accepted outcome leaves behind), `tryRegister(v, o)` with any
option `o` — valid or invalid — yields AlreadyVoted, the loop emits an
`erro` notification carrying `v`, and both `counts` and `castBy` are
unchanged; the duplicate check is decided before option validity (the
statement quantifies over arbitrary `o`). -/
theorem C1_duplicate_always_already_voted (s : ServerState) (u o : String) :
    (∀ o₁ snap s₁, tryRegister s u o₁ = (Outcome.accepted snap, s₁) →
      (lookupVoto s₁.votos u).isSome = true) ∧
    ((lookupVoto s.votos u).isSome = true →
      tryRegister s u o = (Outcome.alreadyVoted, s) ∧
      processVoto s ⟨u, o⟩ = ([enviarErro u "Você já votou."], s)) := by
  constructor
  · intro o₁ snap s₁ htr
    unfold tryRegister at htr
    split at htr
    · simp at htr
    · split at htr
      · simp at htr
      · simp only [Prod.mk.injEq, Outcome.accepted.injEq] at htr
        rw [← htr.2]
        exact lookupVoto_append_self s.votos u o₁
  · intro hd
    have ht := tryRegister_dup s u o hd
    refine ⟨ht, ?_⟩
    unfold processVoto
    rw [ht]

/-- Closed witness for C1, at a state where `"alice"` has voted `"A"`
and attempts the invalid option `"Z"`: duplicate wins over validity. -/
theorem C1_witness :
    tryRegister ⟨[("alice", "A")], [("A", 1), ("B", 0), ("C", 0)]⟩ "alice" "Z" =
      (Outcome.alreadyVoted,
        ⟨[("alice", "A")], [("A", 1), ("B", 0), ("C", 0)]⟩) ∧
    processVoto ⟨[("alice", "A")], [("A", 1), ("B", 0), ("C", 0)]⟩ ⟨"alice", "Z"⟩ =
      ([enviarErro "alice" "Você já votou."],
        ⟨[("alice", "A")], [("A", 1), ("B", 0), ("C", 0)]⟩) :=
  (C1_duplicate_always_already_voted
    ⟨[("alice", "A")], [("A", 1), ("B", 0), ("C", 0)]⟩ "alice" "Z").2 (by decide)

/-- C2: a voter not previously registered supplying an option outside
`{"A","B","C"}` gets InvalidOption, the loop emits an `erro`
notification carrying that voter, and neither `counts` nor `castBy` is
mutated. -/
theorem C2_invalid_option_no_mutation (s : ServerState) (u o : String)
    (h : lookupVoto s.votos u = none) (hv : validOption o = false) :
    tryRegister s u o = (Outcome.invalidOption, s) ∧
    processVoto s ⟨u, o⟩ = ([enviarErro u "Opção inválida."], s) := by
  have ht := tryRegister_invalid s u o h hv
  refine ⟨ht, ?_⟩
  unfold processVoto
  rw [ht]

/-- Closed witness for C2: a fresh voter `"bob"` voting `"Z"` from the
initial state. -/
theorem C2_witness :
    tryRegister initState "bob" "Z" = (Outcome.invalidOption, initState) ∧
    processVoto initState ⟨"bob", "Z"⟩ =
      ([enviarErro "bob" "Opção inválida."], initState) :=
  C2_invalid_option_no_mutation initState "bob" "Z" (by decide) (by decide)

/-- C3: the basic-flow scenario from the initial state: `("alice","A")`
is Accepted with snapshot `{A:1,B:0,C:0}`; `("alice","B")` is
AlreadyVoted leaving the state unchanged; `("bob","Z")` is InvalidOption
leaving the state unchanged; `("bob","B")` is Accepted with snapshot
`{A:1,B:1,C:0}`. -/
theorem C3_basic_flow_scenario :
    processVoto initState ⟨"alice", "A"⟩ =
      ([enviarConfirmacao "alice", enviarParcial [("A", 1), ("B", 0), ("C", 0)]],
        ⟨[("alice", "A")], [("A", 1), ("B", 0), ("C", 0)]⟩) ∧
    processVoto ⟨[("alice", "A")], [("A", 1), ("B", 0), ("C", 0)]⟩ ⟨"alice", "B"⟩ =
      ([enviarErro "alice" "Você já votou."],
        ⟨[("alice", "A")], [("A", 1), ("B", 0), ("C", 0)]⟩) ∧
    processVoto ⟨[("alice", "A")], [("A", 1), ("B", 0), ("C", 0)]⟩ ⟨"bob", "Z"⟩ =
      ([enviarErro "bob" "Opção inválida."],
        ⟨[("alice", "A")], [("A", 1), ("B", 0), ("C", 0)]⟩) ∧
    processVoto ⟨[("alice", "A")], [("A", 1), ("B", 0), ("C", 0)]⟩ ⟨"bob", "B"⟩ =
      ([enviarConfirmacao "bob", enviarParcial [("A", 1), ("B", 1), ("C", 0)]],
        ⟨[("alice", "A"), ("bob", "B")], [("A", 1), ("B", 1), ("C", 0)]⟩) ∧
    registerAll initState
        [⟨"alice", "A"⟩, ⟨"alice", "B"⟩, ⟨"bob", "Z"⟩, ⟨"bob", "B"⟩] =
      ([Outcome.accepted [("A", 1), ("B", 0), ("C", 0)],
        Outcome.alreadyVoted,
        Outcome.invalidOption,
        Outcome.accepted [("A", 1), ("B", 1), ("C", 0)]],
        ⟨[("alice", "A"), ("bob", "B")], [("A", 1), ("B", 1), ("C", 0)]⟩) := by
  decide

/-- C5: when `tryRegister` accepts a vote, the loop emits the
`confirmacao` for that voter first and the `parcial` second, and the
`parcial` payload is exactly the post-increment tally: it equals the
new state's counters, and the chosen option's count went up by one. -/
theorem C5_accept_confirmation_then_parcial (s : ServerState) (v : Voto)
    (snap : List (String × Nat)) (s' : ServerState)
    (h : tryRegister s v.userID v.option = (Outcome.accepted snap, s')) :
    processVoto s v = ([enviarConfirmacao v.userID, enviarParcial snap], s') ∧
    snap = s'.contagem ∧
    getCount snap v.option = getCount s.contagem v.option + 1 := by
  have hp : processVoto s v =
      ([enviarConfirmacao v.userID, enviarParcial snap], s') := by
    unfold processVoto
    rw [h]
  refine ⟨hp, ?_⟩
  unfold tryRegister at h
  split at h
  · simp at h
  · split at h
    · simp at h
    · simp only [Prod.mk.injEq, Outcome.accepted.injEq] at h
      obtain ⟨hsnap, hs⟩ := h
      subst hsnap
      subst hs
      refine ⟨rfl, ?_⟩
      simp [getCount_incCount]

/-- Closed witness for C5, at the first accepted vote of the basic
flow. -/
theorem C5_witness :
    processVoto initState ⟨"alice", "A"⟩ =
      ([enviarConfirmacao "alice", enviarParcial [("A", 1), ("B", 0), ("C", 0)]],
        ⟨[("alice", "A")], [("A", 1), ("B", 0), ("C", 0)]⟩) ∧
    ([("A", 1), ("B", 0), ("C", 0)] : List (String × Nat)) =
      (⟨[("alice", "A")], [("A", 1), ("B", 0), ("C", 0)]⟩ : ServerState).contagem ∧
    getCount [("A", 1), ("B", 0), ("C", 0)] "A" =
      getCount initState.contagem "A" + 1 :=
  C5_accept_confirmation_then_parcial initState ⟨"alice", "A"⟩
    [("A", 1), ("B", 0), ("C", 0)]
    ⟨[("alice", "A")], [("A", 1), ("B", 0), ("C", 0)]⟩ (by decide)

/-- C10: an inbound payload that is valid JSON but lacks `userId`
and/or `opcao` (e.g. `{}`) is not a decode failure: missing fields
decode to `""`, so the message is processed as a vote — from the
initial state `{}` triggers an `erro` broadcast with message
"Opção inválida." whose `userId` is `""`, while an empty-string voter
with a valid option is accepted and registered like any other. -/
theorem C10_missing_fields_decode_to_empty (s : ServerState) (o : String) :
    decodeVoto (Json.obj []) = Except.ok ⟨"", ""⟩ ∧
    processMsg initState (some (Json.obj [])) =
      ([enviarErro "" "Opção inválida."], initState) ∧
    (lookupVoto s.votos "" = none → validOption o = true →
      tryRegister s "" o =
        (Outcome.accepted (incCount s.contagem o),
          ⟨s.votos ++ [("", o)], incCount s.contagem o⟩)) := by
  refine ⟨rfl, by decide, ?_⟩
  intro h hv
  exact tryRegister_ok s "" o h hv

/-- Closed witness for C10, with the empty-string voter choosing
`"A"` from the initial state. -/
theorem C10_witness :
    decodeVoto (Json.obj []) = Except.ok ⟨"", ""⟩ ∧
    processMsg initState (some (Json.obj [])) =
      ([enviarErro "" "Opção inválida."], initState) ∧
    tryRegister initState "" "A" =
      (Outcome.accepted (incCount initState.contagem "A"),
        ⟨initState.votos ++ [("", "A")], incCount initState.contagem "A"⟩) := by
  have h := C10_missing_fields_decode_to_empty initState "A"
  exact ⟨h.1, h.2.1, h.2.2 (by decide) (by decide)⟩

/-- C4: after any sequence of inbound messages processed from the
initial state, the resulting tally satisfies the conservation
invariant: every option's counter equals the number of voters
registered for it, and the counters sum to `|castBy|`. Since every
published `parcial` snapshot and the final snapshot are the counters of
such a reachable state (the inbound list here ranges over every prefix),
every observed snapshot satisfies the invariant. -/
theorem C4_conservation_invariant (inbox : List (Option Json)) :
    (∀ o, getCount (runServer initState inbox).2.contagem o =
      countVotes (runServer initState inbox).2.votos o) ∧
    sumCounts (runServer initState inbox).2.contagem =
      (runServer initState inbox).2.votos.length :=
  Inv_runServer initState inbox Inv_initState

/-- C6: for every option `o`, the counters published across successive
`parcial` messages of a run are non-decreasing at `o`. -/
theorem C6_partial_counts_monotone (inbox : List (Option Json)) (o : String) :
    List.Chain' (fun a b => getCount a o ≤ getCount b o)
      (parcialSnaps (runServer initState inbox).1) :=
  (chain_runServer inbox initState o).tail

/-- C9: registering any arrival order of K votes with K distinct
voterIDs and valid options from the initial state yields exactly K
Accepted outcomes and a final counter total of exactly K (the vote
loop serializes all interleavings into some arrival order, over which
this statement quantifies). -/
theorem C9_distinct_valid_all_accepted (vs : List Voto)
    (hn : (vs.map Voto.userID).Nodup)
    (hv : ∀ v ∈ vs, validOption v.option = true) :
    ((registerAll initState vs).1.filter isAccepted).length = vs.length ∧
    sumCounts (registerAll initState vs).2.contagem = vs.length := by
  have h := registerAll_fresh vs initState hn (fun v _ => rfl) hv
  have h0 : sumCounts initState.contagem = 0 := rfl
  rw [h0] at h
  simpa using h

/-- Closed witness for C9, with two distinct voters. -/
theorem C9_witness :
    ((registerAll initState [⟨"u1", "A"⟩, ⟨"u2", "B"⟩]).1.filter
      isAccepted).length = 2 ∧
    sumCounts (registerAll initState [⟨"u1", "A"⟩, ⟨"u2", "B"⟩]).2.contagem = 2 :=
  C9_distinct_valid_all_accepted [⟨"u1", "A"⟩, ⟨"u2", "B"⟩]
    (by decide) (by decide)

end RabbitNet
